import Mathlib

/-!
Verification of the interactive UI model of `eks-node-explorer`
(`pkg/model/uimodel.go`): the sort-comparator builder `makeNodeSorter`,
the pagination / selection state machine (`View`, `Update`), the
items-per-page computation, and the confirm-action dispatcher `openNode`.

Go strings are embedded as `List Char`; Go `int` as `Int` (no overflow is
relevant to any property below); Go integer division (which truncates
toward zero) as `Int.tdiv`.  Fallible operations (slice indexing, panics)
return explicit result values.
-/

namespace EksNodeExplorer

/-- Go strings, embedded as their character sequences. -/
abbrev GoStr := List Char

/-! ### Natural-order string comparison

Modelled from the spec: the repository compares strings with a third-party
natural-order comparison ("numeric substrings compare by numeric value,
e.g. `node-2` before `node-10`"; tie-break values otherwise compare
lexically).  The library's code is not part of this repository, so the
comparison is modelled from the spec's words: a string is split into
maximal runs of digit / non-digit characters; runs of digits compare by
numeric value, other runs compare lexically, and a strict comparison is
used (equal strings are not less than each other). -/

/-- Maximal runs of digit / non-digit characters of a string. -/
def chunksOf : List Char → List (List Char)
  | [] => []
  | c :: cs =>
    match chunksOf cs with
    | [] => [[c]]
    | [] :: rest => [c] :: rest
    | (d :: ds) :: rest =>
      if c.isDigit == d.isDigit then (c :: d :: ds) :: rest
      else [c] :: (d :: ds) :: rest

/-- Numeric value of a digit run (leading zeros are immaterial). -/
def chunkVal (l : List Char) : Nat :=
  l.foldl (fun acc c => 10 * acc + (c.toNat - 48)) 0

/-- One comparison token: a numeric run (by value) or a plain run. -/
inductive Tok where
  | num : Nat → Tok
  | str : List Char → Tok
deriving DecidableEq

/-- Token of one run. -/
def tokOfChunk (l : List Char) : Tok :=
  match l with
  | [] => .str []
  | c :: _ => if c.isDigit then .num (chunkVal l) else .str l

/-- Token sequence of a string. -/
def natTokens (s : GoStr) : List Tok := (chunksOf s).map tokOfChunk

/-- Strict lexicographic comparison of lists by a boolean strict order
on elements (equal heads recurse; a proper prefix is smaller). -/
def lexLtBy (lt : α → α → Bool) [DecidableEq α] : List α → List α → Bool
  | _, [] => false
  | [], _ :: _ => true
  | a :: as, b :: bs => lt a b || (decide (a = b) && lexLtBy lt as bs)

/-- Strict comparison of characters. -/
def charLt (c d : Char) : Bool := decide (c < d)

/-- Strict comparison of tokens: numeric by value, plain runs lexically,
numeric runs before plain runs. -/
def tokLt : Tok → Tok → Bool
  | .num m, .num n => decide (m < n)
  | .num _, .str _ => true
  | .str _, .num _ => false
  | .str s, .str t => lexLtBy charLt s t

/-- Natural-order strict comparison of strings. -/
def natLt (a b : GoStr) : Bool := lexLtBy tokLt (natTokens a) (natTokens b)

/-! ### Order properties of boolean strict orders -/

/-- Asymmetry of a boolean strict order. -/
def LtAsymm (lt : α → α → Bool) : Prop :=
  ∀ a b, lt a b = true → lt b a = false

/-- Interpolation (negative transitivity): anything strictly between
relates to one side. -/
def LtInterp (lt : α → α → Bool) : Prop :=
  ∀ a b c, lt a c = true → lt a b = true ∨ lt b c = true

/-- Connexity: mutually incomparable elements are equal. -/
def LtConnex (lt : α → α → Bool) : Prop :=
  ∀ a b, lt a b = false → lt b a = false → a = b

theorem ltIrrefl_of_asymm {lt : α → α → Bool} (h : LtAsymm lt) (a : α) :
    lt a a = false := by
  cases hx : lt a a with
  | false => rfl
  | true => rw [← hx]; exact h a a hx

theorem lexLtBy_asymm {lt : α → α → Bool} [DecidableEq α]
    (h : LtAsymm lt) : LtAsymm (lexLtBy lt) := by
  intro la
  induction la with
  | nil =>
    intro lb hlt
    cases lb with
    | nil => simp [lexLtBy] at hlt
    | cons y ys => simp [lexLtBy]
  | cons x xs ih =>
    intro lb hlt
    cases lb with
    | nil => simp [lexLtBy] at hlt
    | cons y ys =>
      simp only [lexLtBy, Bool.or_eq_true, Bool.and_eq_true,
        decide_eq_true_eq] at hlt
      simp only [lexLtBy, Bool.or_eq_false_iff, Bool.and_eq_false_iff,
        decide_eq_false_iff_not]
      rcases hlt with hxy | ⟨hxy, htail⟩
      · constructor
        · exact h x y hxy
        · left
          intro heq
          subst heq
          exact absurd hxy (by simp [ltIrrefl_of_asymm h])
      · subst hxy
        constructor
        · exact ltIrrefl_of_asymm h x
        · right; exact ih ys htail

theorem lexLtBy_connex {lt : α → α → Bool} [DecidableEq α]
    (h : LtConnex lt) : LtConnex (lexLtBy lt) := by
  intro la
  induction la with
  | nil =>
    intro lb h1 h2
    cases lb with
    | nil => rfl
    | cons y ys => simp [lexLtBy] at h1
  | cons x xs ih =>
    intro lb h1 h2
    cases lb with
    | nil => simp [lexLtBy] at h2
    | cons y ys =>
      simp only [lexLtBy, Bool.or_eq_false_iff, Bool.and_eq_false_iff,
        decide_eq_false_iff_not] at h1 h2
      obtain ⟨hxy, hrest1⟩ := h1
      obtain ⟨hyx, hrest2⟩ := h2
      have hxyeq : x = y := h x y hxy hyx
      subst hxyeq
      rcases hrest1 with hne | htail1
      · exact absurd rfl hne
      · rcases hrest2 with hne | htail2
        · exact absurd rfl hne
        · rw [ih ys htail1 htail2]

theorem lexLtBy_interp {lt : α → α → Bool} [DecidableEq α]
    (hI : LtInterp lt) (hC : LtConnex lt) :
    LtInterp (lexLtBy lt) := by
  intro la
  induction la with
  | nil =>
    intro lb lc hlt
    cases lc with
    | nil => simp [lexLtBy] at hlt
    | cons z zs =>
      cases lb with
      | nil => right; exact hlt
      | cons y ys => left; simp [lexLtBy]
  | cons x xs ih =>
    intro lb lc hlt
    cases lc with
    | nil => simp [lexLtBy] at hlt
    | cons z zs =>
      cases lb with
      | nil => right; simp [lexLtBy]
      | cons y ys =>
        simp only [lexLtBy, Bool.or_eq_true, Bool.and_eq_true,
          decide_eq_true_eq] at hlt ⊢
        rcases hlt with hxz | ⟨hxz, htail⟩
        · rcases hI x y z hxz with hxy | hyz
          · left; left; exact hxy
          · right; left; exact hyz
        · subst hxz
          cases hxy : lt x y with
          | true => left; left; rfl
          | false =>
            cases hyx : lt y x with
            | true => right; left; rfl
            | false =>
              have hxyeq : x = y := hC x y hxy hyx
              subst hxyeq
              rcases ih ys zs htail with h1 | h2
              · left; right; exact ⟨rfl, h1⟩
              · right; right; exact ⟨rfl, h2⟩

theorem charLt_asymm : LtAsymm charLt := by
  intro a b h
  simp only [charLt, decide_eq_true_eq] at h
  simp only [charLt, decide_eq_false_iff_not]
  exact lt_asymm h

theorem charLt_interp : LtInterp charLt := by
  intro a b c h
  simp only [charLt, decide_eq_true_eq] at h
  rcases lt_or_le a b with h1 | h1
  · left; simp [charLt, h1]
  · right; simp only [charLt, decide_eq_true_eq]
    exact lt_of_le_of_lt h1 h

theorem charLt_connex : LtConnex charLt := by
  intro a b h1 h2
  simp only [charLt, decide_eq_false_iff_not, not_lt] at h1 h2
  exact le_antisymm h2 h1

theorem tokLt_asymm : LtAsymm tokLt := by
  intro a b h
  cases a with
  | num m =>
    cases b with
    | num n =>
      simp only [tokLt, decide_eq_true_eq] at h
      simp [tokLt, Nat.le_of_lt h]
    | str t => simp [tokLt]
  | str s =>
    cases b with
    | num n => simp [tokLt] at h
    | str t => exact lexLtBy_asymm charLt_asymm s t h

theorem tokLt_interp : LtInterp tokLt := by
  intro a b c h
  cases a with
  | num m =>
    cases c with
    | num p =>
      simp only [tokLt, decide_eq_true_eq] at h
      cases b with
      | num n =>
        rcases Nat.lt_or_ge m n with h1 | h1
        · left; simp [tokLt, h1]
        · right; simp only [tokLt, decide_eq_true_eq]; omega
      | str t => left; simp [tokLt]
    | str t =>
      cases b with
      | num n => right; simp [tokLt]
      | str u => left; simp [tokLt]
  | str s =>
    cases c with
    | num p => simp [tokLt] at h
    | str u =>
      cases b with
      | num n => right; simp [tokLt]
      | str t =>
        rcases lexLtBy_interp charLt_interp charLt_connex s t u h
          with h1 | h1
        · left; exact h1
        · right; exact h1

theorem tokLt_connex : LtConnex tokLt := by
  intro a b h1 h2
  cases a with
  | num m =>
    cases b with
    | num n =>
      simp only [tokLt, decide_eq_false_iff_not, Nat.not_lt] at h1 h2
      have : m = n := Nat.le_antisymm h2 h1
      rw [this]
    | str t => simp [tokLt] at h1
  | str s =>
    cases b with
    | num n => simp [tokLt] at h2
    | str t => rw [lexLtBy_connex charLt_connex s t h1 h2]

theorem natLt_asymm : ∀ a b, natLt a b = true → natLt b a = false := by
  intro a b h
  exact lexLtBy_asymm tokLt_asymm _ _ h

theorem natLt_interp :
    ∀ a b c, natLt a c = true → natLt a b = true ∨ natLt b c = true := by
  intro a b c h
  exact lexLtBy_interp tokLt_interp tokLt_connex _ _ _ h

/-! ### Sorting

`UIModel.Stats` sorts the node snapshot with `sort.Slice` and the
comparator built by `makeNodeSorter`.  The sort is embedded as insertion
sort by the same comparator (any comparison sort agrees with it whenever
the comparator is a consistent strict order). -/

/-- Insert `x` in front of the first element it compares less than. -/
def insertBy (lt : α → α → Bool) (x : α) : List α → List α
  | [] => [x]
  | y :: ys => if lt x y then x :: y :: ys else y :: insertBy lt x ys

/-- Insertion sort by a boolean comparator. -/
def sortBy (lt : α → α → Bool) : List α → List α
  | [] => []
  | x :: xs => insertBy lt x (sortBy lt xs)

theorem mem_insertBy {lt : α → α → Bool} {x v : α} :
    ∀ {s : List α}, v ∈ insertBy lt x s → v = x ∨ v ∈ s := by
  intro s
  induction s with
  | nil =>
    intro h
    simp only [insertBy, List.mem_singleton] at h
    exact Or.inl h
  | cons y ys ih =>
    intro h
    simp only [insertBy] at h
    by_cases hxy : lt x y = true
    · rw [if_pos hxy] at h
      simp only [List.mem_cons] at h
      rcases h with h | h | h
      · exact Or.inl h
      · exact Or.inr (by simp [h])
      · exact Or.inr (by simp [h])
    · rw [if_neg hxy] at h
      simp only [List.mem_cons] at h
      rcases h with h | h
      · exact Or.inr (by simp [h])
      · rcases ih h with h1 | h1
        · exact Or.inl h1
        · exact Or.inr (by simp [h1])

/-- Insertion preserves sortedness (each later element is not less than
each earlier one), given asymmetry and interpolation. -/
theorem insertBy_pairwise {lt : α → α → Bool}
    (hA : LtAsymm lt) (hI : LtInterp lt) (x : α) :
    ∀ {s : List α}, s.Pairwise (fun u v => lt v u = false) →
      (insertBy lt x s).Pairwise (fun u v => lt v u = false) := by
  intro s
  induction s with
  | nil =>
    intro _
    simp [insertBy]
  | cons y ys ih =>
    intro hs
    rw [List.pairwise_cons] at hs
    obtain ⟨hy, hys⟩ := hs
    simp only [insertBy]
    by_cases hxy : lt x y = true
    · rw [if_pos hxy]
      refine List.Pairwise.cons ?_ (List.Pairwise.cons hy hys)
      intro v hv
      simp only [List.mem_cons] at hv
      rcases hv with hv | hv
      · rw [hv]
        exact hA x y hxy
      · cases hvx : lt v x with
        | false => rfl
        | true =>
          rcases hI v y x hvx with h1 | h1
          · exact absurd h1 (by simp [hy v hv])
          · exact absurd h1 (by simp [hA x y hxy])
    · rw [if_neg hxy]
      refine List.Pairwise.cons ?_ (ih hys)
      intro v hv
      rcases mem_insertBy hv with h1 | h1
      · subst h1
        exact Bool.eq_false_iff.mpr hxy
      · exact hy v h1

theorem sortBy_pairwise {lt : α → α → Bool}
    (hA : LtAsymm lt) (hI : LtInterp lt) :
    ∀ l : List α, (sortBy lt l).Pairwise (fun u v => lt v u = false) := by
  intro l
  induction l with
  | nil => simp [sortBy]
  | cons x xs ih => exact insertBy_pairwise hA hI x ih

theorem insertBy_append_of_lt (lt : α → α → Bool) (x y : α)
    (hxy : lt x y = true) :
    ∀ A : List α, insertBy lt x (A ++ [y]) = insertBy lt x A ++ [y] := by
  intro A
  induction A with
  | nil => simp [insertBy, hxy]
  | cons a A ih =>
    simp only [List.cons_append, insertBy]
    by_cases hxa : lt x a = true
    · rw [if_pos hxa, if_pos hxa]
      simp
    · rw [if_neg hxa, if_neg hxa]
      simp [ih]

theorem insertBy_all_false {lt : α → α → Bool} {x : α} :
    ∀ {A : List α}, (∀ e ∈ A, lt x e = false) →
      insertBy lt x A = A ++ [x] := by
  intro A
  induction A with
  | nil => intro _; simp [insertBy]
  | cons a A ih =>
    intro h
    simp only [insertBy]
    rw [if_neg (by simp [h a (by simp)])]
    simp only [List.cons_append, List.cons.injEq, true_and]
    exact ih (fun e he => h e (by simp [he]))

/-- Key duality step: inserting with the negated comparator into the
reversed list mirrors inserting with the comparator, provided the list is
sorted and the comparator is asymmetric with interpolation. -/
theorem insertBy_not_reverse {lt : α → α → Bool}
    (hI : LtInterp lt) (x : α) :
    ∀ {s : List α}, s.Pairwise (fun u v => lt v u = false) →
      insertBy (fun a b => !lt a b) x s.reverse = (insertBy lt x s).reverse := by
  intro s
  induction s with
  | nil => intro _; simp [insertBy]
  | cons y t ih =>
    intro hs
    rw [List.pairwise_cons] at hs
    obtain ⟨hy, ht⟩ := hs
    simp only [insertBy, List.reverse_cons]
    by_cases hxy : lt x y = true
    · rw [if_pos hxy]
      have hall : ∀ e ∈ t.reverse ++ [y], (!lt x e) = false := by
        intro e he
        rcases List.mem_append.mp he with h1 | h1
        · rw [List.mem_reverse] at h1
          rcases hI x e y hxy with h2 | h2
          · simp [h2]
          · exact absurd h2 (by simp [hy e h1])
        · simp only [List.mem_singleton] at h1
          subst h1
          simp [hxy]
      rw [insertBy_all_false hall]
      simp
    · rw [if_neg hxy]
      have hxy' : (!lt x y) = true := by
        simp [Bool.eq_false_iff.mpr hxy]
      rw [insertBy_append_of_lt (fun a b => !lt a b) x y hxy' t.reverse]
      rw [ih ht]
      simp

/-- Sorting with the negated comparator yields exactly the reverse of
sorting with the comparator. -/
theorem sortBy_not_reverse {lt : α → α → Bool}
    (hA : LtAsymm lt) (hI : LtInterp lt) :
    ∀ l : List α, sortBy (fun a b => !lt a b) l = (sortBy lt l).reverse := by
  intro l
  induction l with
  | nil => simp [sortBy]
  | cons x xs ih =>
    simp only [sortBy]
    rw [ih, insertBy_not_reverse hI x (sortBy_pairwise hA hI xs)]

/-! ### Nodes and the sort-comparator builder (`makeNodeSorter`) -/

/-- A cluster node, restricted to the fields `makeNodeSorter` and
`openNode` read.  `created` is the creation timestamp (`time.Time`,
embedded as an integer instant); `labels` is the node's label mapping. -/
structure Node where
  name : GoStr
  instanceID : GoStr
  created : Int
  labels : List (GoStr × GoStr)
  isFargate : Bool
deriving DecidableEq

/-- Go `strings.HasSuffix`. -/
def goHasSuffix (s suf : GoStr) : Bool := suf.isSuffixOf s

/-- Go `s[:len(s)-n]` (the suffixes stripped are ASCII, so byte and
character counts coincide). -/
def goDropRight (s : GoStr) (n : Nat) : GoStr := s.take (s.length - n)

/-- Suffix parsing of a sort specification, exactly as `makeNodeSorter`
does it: first strip a trailing `=asc` if present, then strip a trailing
`=dsc` if present, the latter selecting the inverting order. -/
def parseSortSpec (spec : GoStr) : Bool × GoStr :=
  let s1 := if goHasSuffix spec "=asc".data then goDropRight spec 4 else spec
  if goHasSuffix s1 "=dsc".data then (true, goDropRight s1 4) else (false, s1)

/-- The `sortOrder` wrapper: identity for ascending, negation for `=dsc`. -/
def sortOrderApply (inv b : Bool) : Bool := if inv then !b else b

/-- The `creation` comparator body: newest first, ties broken by
natural-order comparison of node names. -/
def creationLess (lhs rhs : Node) : Bool :=
  if lhs.created = rhs.created then natLt lhs.name rhs.name
  else decide (rhs.created < lhs.created)

/-- A node's value under a label key: the direct label lookup, or else the
computed-label fallback.  `ComputeLabel` lives in repository code outside
the provided sources; per the spec it is an external capability mapping
synthetic keys to derived values, so it is taken as a parameter here. -/
def labelValue (computeLabel : GoStr → Node → GoStr) (key : GoStr)
    (n : Node) : GoStr :=
  match n.labels.lookup key with
  | some v => v
  | none => computeLabel key n

/-- The label comparator body: natural order of label values, ties broken
by natural order of instance identifiers. -/
def labelLess (computeLabel : GoStr → Node → GoStr) (key : GoStr)
    (lhs rhs : Node) : Bool :=
  let lv := labelValue computeLabel key lhs
  let rv := labelValue computeLabel key rhs
  if lv = rv then natLt lhs.instanceID rhs.instanceID else natLt lv rv

/-- `makeNodeSorter` from `uimodel.go`. -/
def makeNodeSorter (computeLabel : GoStr → Node → GoStr)
    (nodeSort : GoStr) : Node → Node → Bool :=
  let p := parseSortSpec nodeSort
  if p.2 = "creation".data then
    fun lhs rhs => sortOrderApply p.1 (creationLess lhs rhs)
  else
    fun lhs rhs => sortOrderApply p.1 (labelLess computeLabel p.2 lhs rhs)

theorem creationLess_asymm : LtAsymm creationLess := by
  intro a b h
  unfold creationLess at h ⊢
  by_cases hc : a.created = b.created
  · rw [if_pos hc] at h
    rw [if_pos hc.symm]
    exact natLt_asymm _ _ h
  · rw [if_neg hc] at h
    rw [if_neg (fun hh => hc hh.symm)]
    simp only [decide_eq_true_eq] at h
    simp only [decide_eq_false_iff_not]
    omega

theorem creationLess_interp : LtInterp creationLess := by
  intro a b c h
  unfold creationLess at h ⊢
  by_cases hac : a.created = c.created
  · rw [if_pos hac] at h
    by_cases hab : a.created = b.created
    · have hbc : b.created = c.created := by omega
      rcases natLt_interp a.name b.name c.name h with h1 | h1
      · left; rw [if_pos hab]; exact h1
      · right; rw [if_pos hbc]; exact h1
    · rcases lt_trichotomy b.created a.created with h1 | h1 | h1
      · left; rw [if_neg hab]; simp [h1]
      · exact absurd h1.symm hab
      · right
        rw [if_neg (by omega)]
        simp only [decide_eq_true_eq]
        omega
  · rw [if_neg hac] at h
    simp only [decide_eq_true_eq] at h
    by_cases hab : a.created = b.created
    · right
      rw [if_neg (by omega)]
      simp only [decide_eq_true_eq]
      omega
    · by_cases hbc : b.created = c.created
      · left
        rw [if_neg hab]
        simp only [decide_eq_true_eq]
        omega
      · rcases lt_trichotomy b.created a.created with h1 | h1 | h1
        · left; rw [if_neg hab]; simp [h1]
        · exact absurd h1.symm hab
        · right
          rw [if_neg hbc]
          simp only [decide_eq_true_eq]
          omega

theorem suffix_eq_of_length {α : Type _} {u v l : List α}
    (hu : u <:+ l) (hv : v <:+ l) (hlen : u.length = v.length) : u = v := by
  obtain ⟨t1, h1⟩ := hu
  obtain ⟨t2, h2⟩ := hv
  rw [← h2] at h1
  exact (List.append_inj' h1 hlen).2

theorem goHasSuffix_append (k b : GoStr) : goHasSuffix (k ++ b) b = true := by
  simp [goHasSuffix, List.isSuffixOf_iff_suffix]

theorem goHasSuffix_append_ne {b c : GoStr} (k : GoStr)
    (hlen : b.length = c.length) (hne : b ≠ c) :
    goHasSuffix (k ++ c) b = false := by
  cases h : goHasSuffix (k ++ c) b with
  | false => rfl
  | true =>
    rw [goHasSuffix, List.isSuffixOf_iff_suffix] at h
    exact absurd (suffix_eq_of_length h (List.suffix_append k c) hlen) hne

theorem goDropRight_append (k b : GoStr) :
    goDropRight (k ++ b) b.length = k := by
  rw [goDropRight, List.length_append, Nat.add_sub_cancel]
  exact List.take_left' rfl

theorem parseSortSpec_append_dsc (k : GoStr) :
    parseSortSpec (k ++ "=dsc".data) = (true, k) := by
  have hlen : ("=asc".data).length = ("=dsc".data).length := by decide
  have hne : "=asc".data ≠ "=dsc".data := by decide
  have h4 : ("=dsc".data).length = 4 := by decide
  rw [parseSortSpec]
  simp only [goHasSuffix_append_ne k hlen hne, if_false, Bool.false_eq_true,
    goHasSuffix_append, if_true]
  rw [← h4, goDropRight_append]

theorem parseSortSpec_append_asc (k : GoStr)
    (hk : goHasSuffix k "=dsc".data = false) :
    parseSortSpec (k ++ "=asc".data) = (false, k) := by
  have h4 : ("=asc".data).length = 4 := by decide
  rw [parseSortSpec]
  simp only [goHasSuffix_append, if_true]
  rw [← h4, goDropRight_append]
  simp [hk]

/-- C2: for every sort specification (a key with no direction suffix of
its own), the `=dsc` suffix inverts the final boolean result of the whole
comparator, tie-break included; and sorting by `creation=dsc` produces
exactly the reverse of sorting by `creation=asc`, for every node list. -/
theorem C2_dsc_inverts_whole_comparator_and_reverses_creation_sort :
    (∀ k : GoStr, goHasSuffix k "=dsc".data = false →
      ∀ (cl : GoStr → Node → GoStr) (l r : Node),
        makeNodeSorter cl (k ++ "=dsc".data) l r
          = !(makeNodeSorter cl (k ++ "=asc".data) l r))
    ∧ (∀ (cl : GoStr → Node → GoStr) (nodes : List Node),
        sortBy (makeNodeSorter cl "creation=dsc".data) nodes
          = (sortBy (makeNodeSorter cl "creation=asc".data) nodes).reverse) := by
  constructor
  · intro k hk cl l r
    have h1 := parseSortSpec_append_dsc k
    have h2 := parseSortSpec_append_asc k hk
    simp only [makeNodeSorter, h1, h2]
    by_cases hkc : k = "creation".data
    · simp [hkc, sortOrderApply]
    · simp [hkc, sortOrderApply]
  · intro cl nodes
    have hasc : makeNodeSorter cl "creation=asc".data = creationLess := by
      funext l r
      rfl
    have hdsc : makeNodeSorter cl "creation=dsc".data
        = fun a b => !(creationLess a b) := by
      funext l r
      rfl
    rw [hasc, hdsc]
    exact sortBy_not_reverse creationLess_asymm creationLess_interp nodes

/-- Fixed example nodes used by concrete witnesses. -/
def nodeA : Node :=
  ⟨"node-2".data, "i-0a".data, 5, [("zone".data, "us-west-2a".data)], false⟩

/-- Fixed example nodes used by concrete witnesses. -/
def nodeB : Node :=
  ⟨"node-10".data, "i-0b".data, 3, [("zone".data, "us-west-2a".data)], false⟩

/-- Witness for C2 at a concrete key and concrete nodes. -/
theorem C2_witness :
    goHasSuffix "creation".data "=dsc".data = false
    ∧ makeNodeSorter (fun _ _ => []) ("creation".data ++ "=dsc".data) nodeA nodeB
      = !(makeNodeSorter (fun _ _ => []) ("creation".data ++ "=asc".data) nodeA nodeB) :=
  ⟨by decide,
    C2_dsc_inverts_whole_comparator_and_reverses_creation_sort.1
      "creation".data (by decide) (fun _ _ => []) nodeA nodeB⟩

/-! ### The UI state machine

State read/written by `UIModel.View` and `UIModel.Update`.  The paginator
is the third-party dots paginator the model embeds; its operations
(`SetTotalPages`, `GetSliceBounds`, `PrevPage`, `NextPage`) are modelled
from the spec's pagination-engine contract — `totalPages = ceil(N/C)` in
Go integer arithmetic, `start = page*perPage`,
`end = min(start+perPage, N)` — which is the library's behaviour.
`SetTotalPages` divides the item count by `perPage`; a zero `perPage`
is a Go integer division by zero (a runtime panic), reported by the
boolean flag `viewStep` returns alongside the new state. -/

structure PagModel where
  page : Int
  perPage : Int
  totalPages : Int
deriving DecidableEq

structure UIModel where
  height : Int
  current : Int
  start : Int
  stop : Int
  pag : PagModel
  err : Option GoStr
  copyInstanceID : Bool
  nodeExec : GoStr
  nodeSort : GoStr
deriving DecidableEq

/-- `NewUIModel`: zero geometry, zero cursor/bounds, a fresh paginator
(page 0, one item per page, one total page). -/
def newUIModel (nodeSort : GoStr) (copyInstanceID : Bool)
    (nodeExec : GoStr) : UIModel :=
  { height := 0, current := 0, start := 0, stop := 0
    pag := { page := 0, perPage := 1, totalPages := 1 }
    err := none, copyInstanceID := copyInstanceID
    nodeExec := nodeExec, nodeSort := nodeSort }

/-- The world a step observes: the cluster snapshot (`Stats` data), the
measured line counts of the rendered summary and of one rendered node,
the clipboard-initialization outcome, and the computed-label capability. -/
structure ClusterEnv where
  nodes : List Node
  headerNL : Int
  nodeLines : Int
  clipInit : Option GoStr
  computeLabel : GoStr → Node → GoStr

/-- `Stats.NumNodes`: the number of nodes in the snapshot (sorting the
snapshot does not change it). -/
def numNodes (env : ClusterEnv) : Int := (env.nodes.length : Int)

/-- `UIModel.Stats`: the snapshot's node sequence, sorted in place with
the comparator built by `makeNodeSorter`. -/
def goStats (env : ClusterEnv) (u : UIModel) : List Node :=
  sortBy (makeNodeSorter env.computeLabel u.nodeSort) env.nodes

/-- `computeItemsPerPage`: lines available under the header, divided by
the line count of one rendered node (forced to at least 1), minus one.
The header line count is the newline count of the summary block plus 2. -/
def computeItemsPerPage (height headerNL nodeLines : Int) : Int :=
  let nl := if nodeLines = 0 then 1 else nodeLines
  Int.tdiv (height - (headerNL + 2)) nl - 1

/-- Paginator `SetTotalPages` (Go arithmetic: `items/perPage`, plus one
when the remainder is positive; no-op for fewer than one item). -/
def setTotalPages (items : Int) (p : PagModel) : PagModel :=
  if items < 1 then p
  else
    { p with totalPages :=
        Int.tdiv items p.perPage
          + (if 0 < Int.tmod items p.perPage then 1 else 0) }

/-- Paginator `GetSliceBounds`. -/
def getSliceBounds (len : Int) (p : PagModel) : Int × Int :=
  (p.page * p.perPage, min (p.page * p.perPage + p.perPage) len)

/-- `UIModel.View`, state effects only: recompute the per-page capacity,
recompute total pages, repair a stale page, take slice bounds and clamp
the cursor.  The second component reports whether the total-page
computation divided by zero (capacity 0 with a non-empty node set); the
zero-node early return performs none of this. -/
def viewStep (env : ClusterEnv) (u : UIModel) : UIModel × Bool :=
  let n := numNodes env
  if n = 0 then (u, false)
  else
    let pp := computeItemsPerPage u.height env.headerNL env.nodeLines
    let dbz : Bool := decide (pp = 0)
    let pag1 := setTotalPages n { u.pag with perPage := pp }
    let pag2 :=
      if pag1.page * pag1.perPage > n then
        { pag1 with page := pag1.totalPages - 1 }
      else pag1
    let se := getSliceBounds n pag2
    let cur := if u.current ≥ se.2 - se.1 then se.2 - se.1 - 1 else u.current
    ({ u with pag := pag2, start := se.1, stop := se.2, current := cur }, dbz)

/-- Events consumed by `UIModel.Update`. -/
inductive TeaMsg where
  | winSize (height width : Int)
  | keyUp
  | keyDown
  | keyEnter
  | keyQuit
  | execFinished (err : Option GoStr)
  | tick
deriving DecidableEq

/-- Commands returned to the runtime by `UIModel.Update`. -/
inductive TeaCmd where
  | nilCmd
  | tickCmd
  | quit
  | execProc (cmdline : GoStr)
deriving DecidableEq

/-- Go slice-then-index `nodes[start:end][current]`: `none` models the
out-of-range runtime panic. -/
def goSliceIndex (l : List Node) (s e i : Int) : Option Node :=
  if 0 ≤ s ∧ s ≤ e ∧ e ≤ (l.length : Int) then
    let v := (l.take e.toNat).drop s.toNat
    if 0 ≤ i ∧ i < (v.length : Int) then v.get? i.toNat else none
  else none

/-- `UIModel.SelectedNode`. -/
def selectedNode (env : ClusterEnv) (u : UIModel) : Option Node :=
  goSliceIndex (goStats env u) u.start u.stop u.current

/-- `fmt.Sprintf` with the single `%s` verb the command template carries:
the first `%s` is replaced by the payload. -/
def sprintfS : GoStr → GoStr → GoStr
  | [], _ => []
  | '%' :: 's' :: rest, payload => payload ++ rest
  | c :: rest, payload => c :: sprintfS rest payload

/-- Outcome of `openNode`.  `copied` is the clipboard-only action (the
returned command is the paginator's, i.e. nil for the enter key);
`execStarted` carries the command line dispatched asynchronously via the
shell (`/bin/sh -c`); the two panic outcomes model `panic(err)` after a
clipboard-initialization failure and the out-of-range selection lookup. -/
inductive OpenResult where
  | panicIndexOutOfRange
  | panicClipboard (e : GoStr)
  | copied (payload : GoStr)
  | execStarted (cmdline : GoStr)
deriving DecidableEq

/-- `openNode` from `uimodel.go`. -/
def openNode (env : ClusterEnv) (u : UIModel) : OpenResult :=
  match selectedNode env u with
  | none => .panicIndexOutOfRange
  | some sel =>
    let nodeName := if u.copyInstanceID then sel.instanceID else sel.name
    if u.nodeExec = [] ∨ nodeName = [] ∨ sel.isFargate = true then
      match env.clipInit with
      | some e => .panicClipboard e
      | none => .copied nodeName
    else
      .execStarted (sprintfS u.nodeExec nodeName)

/-- Result of one `UIModel.Update` step: next state, returned command,
and the confirm-action outcome when the enter key was handled. -/
structure StepOut where
  model : UIModel
  cmd : TeaCmd
  opened : Option OpenResult
deriving DecidableEq

/-- `UIModel.Update`, message by message.  Navigation reads the fresh
snapshot's node count for the recomputed slice bounds, exactly as the
source calls `u.Stats().NumNodes`. -/
def updateStep (env : ClusterEnv) (msg : TeaMsg) (u : UIModel) : StepOut :=
  match msg with
  | .winSize h _ => ⟨{ u with height := h }, .tickCmd, none⟩
  | .keyUp =>
    if u.current > 0 then ⟨{ u with current := u.current - 1 }, .nilCmd, none⟩
    else if u.current = 0 ∧ u.pag.page > 0 then
      let pag := { u.pag with page := u.pag.page - 1 }
      let se := getSliceBounds (numNodes env) pag
      ⟨{ u with
          pag := pag
          start := se.1
          stop := se.2
          current := se.2 - se.1 - 1 }, .nilCmd, none⟩
    else ⟨u, .nilCmd, none⟩
  | .keyDown =>
    if u.current < u.stop - u.start - 1 then
      ⟨{ u with current := u.current + 1 }, .nilCmd, none⟩
    else if u.current = u.stop - u.start - 1
        ∧ u.pag.page ≠ u.pag.totalPages - 1 then
      let pag := { u.pag with page := u.pag.page + 1 }
      let se := getSliceBounds (numNodes env) pag
      ⟨{ u with
          pag := pag
          start := se.1
          stop := se.2
          current := 0 }, .nilCmd, none⟩
    else ⟨u, .nilCmd, none⟩
  | .keyQuit => ⟨u, .quit, none⟩
  | .keyEnter =>
    let r := openNode env u
    match r with
    | .execStarted c => ⟨u, .execProc c, some r⟩
    | _ => ⟨u, .nilCmd, some r⟩
  | .execFinished e =>
    match e with
    | some err => ⟨{ u with err := some err }, .quit, none⟩
    | none => ⟨u, .nilCmd, none⟩
  | .tick => ⟨u, .tickCmd, none⟩

/-! ### Utilization percentages and color thresholds

`writeClusterSummary` / `writeNodeInfo` compute percentages in `float64`;
the two claims about them (zero allocatable forces 0, thresholds are
strict) are branch properties with exactly representable bounds, embedded
over exact rationals. -/

/-- `writeClusterSummary`: `pctUsed := 0.0; if allocatable != 0 then
pctUsed = 100 * used / allocatable`. -/
def pctUsedCluster (allocatable used : ℚ) : ℚ :=
  if allocatable ≠ 0 then 100 * (used / allocatable) else 0

/-- The three color bands of the summary percentage. -/
inductive SummaryColor where
  | green
  | yellow
  | red
deriving DecidableEq

/-- `writeClusterSummary`'s color choice: `> 90` green, else `> 60`
yellow, else red (strict comparisons, 0–100 scale). -/
def summaryColor (pctUsed : ℚ) : SummaryColor :=
  if pctUsed > 90 then .green
  else if pctUsed > 60 then .yellow
  else .red

/-- `writeNodeInfo`: `pct := used / allocatable; if allocatable == 0 then
pct = 0` (the per-node gauge ratio). -/
def nodeGaugeRatio (allocatable used : ℚ) : ℚ :=
  let pct := used / allocatable
  if allocatable = 0 then 0 else pct

/-- C7: utilization percentage is exactly 0 whenever allocatable is 0
(regardless of used), likewise the per-node gauge ratio; the color
thresholds are strict: 90.0 itself is not in the top band but anything
above 90 is, and 60.0 itself is not in the middle band (it is in the
bottom band) while anything in (60, 90] is. -/
theorem C7_zero_allocatable_and_strict_thresholds :
    (∀ used : ℚ, pctUsedCluster 0 used = 0)
    ∧ (∀ used : ℚ, nodeGaugeRatio 0 used = 0)
    ∧ summaryColor 90 ≠ SummaryColor.green
    ∧ (∀ p : ℚ, 90 < p → summaryColor p = SummaryColor.green)
    ∧ summaryColor 60 ≠ SummaryColor.yellow
    ∧ summaryColor 60 = SummaryColor.red
    ∧ (∀ p : ℚ, 60 < p → p ≤ 90 → summaryColor p = SummaryColor.yellow) := by
  refine ⟨?_, ?_, ?_, ?_, ?_, ?_, ?_⟩
  · intro used
    simp [pctUsedCluster]
  · intro used
    simp [nodeGaugeRatio]
  · norm_num [summaryColor]
    decide
  · intro p hp
    simp [summaryColor, hp]
  · norm_num [summaryColor]
    decide
  · norm_num [summaryColor]
  · intro p h1 h2
    rw [summaryColor, if_neg (by linarith), if_pos h1]

/-- Witness for C7 at concrete percentages. -/
theorem C7_witness :
    summaryColor 91 = SummaryColor.green
    ∧ summaryColor 61 = SummaryColor.yellow
    ∧ pctUsedCluster 0 7 = 0 :=
  ⟨C7_zero_allocatable_and_strict_thresholds.2.2.2.1 91 (by norm_num),
    C7_zero_allocatable_and_strict_thresholds.2.2.2.2.2.2 61 (by norm_num)
      (by norm_num),
    C7_zero_allocatable_and_strict_thresholds.1 7⟩

/-- C4 (corrected): the capacity is Go's truncating (toward-zero)
division, `trunc((H - header)/L) - 1` with `header = headerNL + 2` and
`L` forced to at least 1; it agrees with the claimed
`floor((H - header)/L) - 1` exactly when `H ≥ header`. -/
theorem C4_capacity_is_trunc_division :
    ∀ height headerNL L : Int, 0 < L →
      computeItemsPerPage height headerNL L
          = Int.tdiv (height - (headerNL + 2)) L - 1
      ∧ (headerNL + 2 ≤ height →
          computeItemsPerPage height headerNL L
            = Int.fdiv (height - (headerNL + 2)) L - 1) := by
  intro height headerNL L hL
  constructor
  · rw [computeItemsPerPage]
    rw [if_neg (by omega)]
  · intro hh
    rw [computeItemsPerPage]
    rw [if_neg (by omega)]
    have hnum : (0 : Int) ≤ height - (headerNL + 2) := by omega
    have hden : (0 : Int) ≤ L := by omega
    obtain ⟨m, hm⟩ := Int.eq_ofNat_of_zero_le hnum
    obtain ⟨n, hn⟩ := Int.eq_ofNat_of_zero_le hden
    rw [hm, hn, ← Int.ofNat_tdiv, ← Int.ofNat_fdiv]

/-- Counterexample for C4 as stated: at viewport height 4, a 3-newline
summary (header 5) and 2-line nodes, the code computes trunc(-1/2)-1 = -1
while the claimed floor formula gives floor(-1/2)-1 = -2. -/
theorem C4_counterexample :
    computeItemsPerPage 4 3 2 ≠ Int.fdiv (4 - (3 + 2)) 2 - 1 := by
  decide

/-- Witness for C4 at a concrete geometry. -/
theorem C4_witness :
    computeItemsPerPage 10 2 3 = Int.tdiv (10 - (2 + 2)) 3 - 1
    ∧ computeItemsPerPage 10 2 3 = Int.fdiv (10 - (2 + 2)) 3 - 1 :=
  ⟨(C4_capacity_is_trunc_division 10 2 3 (by decide)).1,
    (C4_capacity_is_trunc_division 10 2 3 (by decide)).2 (by decide)⟩

/-! ### Concrete machines used by the trace-based results -/

/-- A placeholder node for counting-only traces. -/
def dummyNode : Node := ⟨[], [], 0, [], false⟩

/-- A snapshot of `n` nodes with a 2-newline summary and 1-line nodes. -/
def mkEnv (n : Nat) : ClusterEnv :=
  ⟨List.replicate n dummyNode, 2, 1, none, fun _ _ => []⟩

/-- The freshly constructed model browsing by creation time. -/
def initModel : UIModel := newUIModel "creation".data false []

/-- C5 (code bug): with one node and viewport height 5 (summary header 5,
1-line nodes) the computed capacity is exactly 0, and the render step
reaches the total-page computation, which divides the node count by the
zero capacity — a Go integer division by zero — instead of degenerating
to "no visible rows". -/
theorem C5_zero_capacity_divides_by_zero :
    computeItemsPerPage 5 2 1 = 0
    ∧ (viewStep (mkEnv 1)
        ((updateStep (mkEnv 1) (.winSize 5 80) initModel).model)).2 = true := by
  decide

/-- C3: for a valid selection, the confirm action copies the payload (and
never starts the external command) when no command template is
configured, or the payload is empty, or the selected node is Fargate;
otherwise it substitutes the payload into the template (single positional
substitution) and dispatches it via the shell. -/
theorem C3_confirm_action_dispatch :
    ∀ (env : ClusterEnv) (u : UIModel) (sel : Node),
      selectedNode env u = some sel →
      ((u.nodeExec = []
          ∨ (if u.copyInstanceID then sel.instanceID else sel.name) = []
          ∨ sel.isFargate = true) →
        (env.clipInit = none →
          openNode env u
            = .copied (if u.copyInstanceID then sel.instanceID else sel.name))
        ∧ ∀ c, openNode env u ≠ .execStarted c)
      ∧ (¬(u.nodeExec = []
          ∨ (if u.copyInstanceID then sel.instanceID else sel.name) = []
          ∨ sel.isFargate = true) →
        openNode env u
          = .execStarted (sprintfS u.nodeExec
              (if u.copyInstanceID then sel.instanceID else sel.name))) := by
  intro env u sel hsel
  constructor
  · intro hcond
    constructor
    · intro hclip
      rw [openNode, hsel]
      simp only
      rw [if_pos hcond, hclip]
    · intro c
      rw [openNode, hsel]
      simp only
      rw [if_pos hcond]
      cases env.clipInit <;> simp
  · intro hcond
    rw [openNode, hsel]
    simp only
    rw [if_neg hcond]

/-- A Fargate node used by concrete witnesses. -/
def nodeF : Node := ⟨"fargate-ip".data, "fp-1".data, 9, [], true⟩

/-- The world for the C3 witness: one Fargate node, clipboard healthy. -/
def envF : ClusterEnv := ⟨[nodeF], 2, 1, none, fun _ _ => []⟩

/-- A model selecting that node with a configured command template. -/
def modelF : UIModel :=
  { newUIModel "creation".data true "aws ssm start-session --target %s".data
      with start := 0, stop := 1, current := 0 }

/-- Witness for C3: a Fargate node with a configured command template is
still only copied. -/
theorem C3_witness :
    selectedNode envF modelF = some nodeF
    ∧ openNode envF modelF = OpenResult.copied nodeF.instanceID := by
  have hsel : selectedNode envF modelF = some nodeF := by decide
  refine ⟨hsel, ?_⟩
  exact ((C3_confirm_action_dispatch envF modelF nodeF hsel).1
    (Or.inr (Or.inr (by decide)))).1 rfl

/-- C6: a clipboard-initialization failure on the copy path is a panic
(aborts the program); a failed external command stores the error on the
model and quits the session; a successful completion returns to browsing
(no quit, error untouched). -/
theorem C6_failure_semantics :
    (∀ (env : ClusterEnv) (u : UIModel) (sel : Node) (e : GoStr),
      selectedNode env u = some sel →
      (u.nodeExec = []
        ∨ (if u.copyInstanceID then sel.instanceID else sel.name) = []
        ∨ sel.isFargate = true) →
      env.clipInit = some e →
      openNode env u = .panicClipboard e)
    ∧ (∀ (env : ClusterEnv) (u : UIModel) (e : GoStr),
        updateStep env (.execFinished (some e)) u
          = ⟨{ u with err := some e }, .quit, none⟩)
    ∧ (∀ (env : ClusterEnv) (u : UIModel),
        updateStep env (.execFinished none) u = ⟨u, .nilCmd, none⟩) := by
  refine ⟨?_, ?_, ?_⟩
  · intro env u sel e hsel hcond hclip
    rw [openNode, hsel]
    simp only
    rw [if_pos hcond, hclip]
  · intro env u e
    rfl
  · intro env u
    rfl

/-- Witness for C6 at concrete inputs. -/
theorem C6_witness :
    updateStep envF (.execFinished (some "exit status 1".data)) modelF
      = ⟨{ modelF with err := some "exit status 1".data },
          TeaCmd.quit, none⟩ :=
  C6_failure_semantics.2.1 envF modelF "exit status 1".data

/-- C10: the enter handler forwards to the payload resolution with no
emptiness guard, and on an empty node set the selected-node lookup
indexes an empty slice and is out of bounds (a runtime panic), for the
reachable initial state in particular. -/
theorem C10_enter_unguarded_on_empty_set :
    (∀ (env : ClusterEnv) (u : UIModel),
      (updateStep env .keyEnter u).opened = some (openNode env u))
    ∧ (∀ (env : ClusterEnv) (u : UIModel), env.nodes = [] →
        selectedNode env u = none
        ∧ openNode env u = .panicIndexOutOfRange)
    ∧ (updateStep (mkEnv 0) .keyEnter initModel).opened
        = some OpenResult.panicIndexOutOfRange := by
  refine ⟨?_, ?_, ?_⟩
  · intro env u
    cases h : openNode env u <;> simp [updateStep, h]
  · intro env u h
    have hstats : goStats env u = [] := by
      simp [goStats, h, sortBy]
    have hsel : selectedNode env u = none := by
      rw [selectedNode, hstats, goSliceIndex]
      simp only [List.take_nil, List.drop_nil, List.length_nil, Nat.cast_zero]
      have h2 : ¬(0 ≤ u.current ∧ u.current < (0 : Int)) := by omega
      rw [if_neg h2]
      split_ifs <;> rfl
    refine ⟨hsel, ?_⟩
    rw [openNode, hsel]
  · decide

/-- Witness for C10 on the empty snapshot and fresh model. -/
theorem C10_witness :
    selectedNode (mkEnv 0) initModel = none
    ∧ openNode (mkEnv 0) initModel = OpenResult.panicIndexOutOfRange :=
  C10_enter_unguarded_on_empty_set.2.1 (mkEnv 0) initModel rfl

/-- Cursor-clamp helper: the render clamp enforces the upper bound. -/
theorem clamp_le (cur b : Int) : (if cur ≥ b then b - 1 else cur) ≤ b - 1 := by
  split_ifs <;> omega

/-- C1 (corrected): after a render with a non-empty node set, the clamp
guarantees only the upper bound `current ≤ visibleCount - 1`; it never
raises a negative cursor (see the counterexample for the lower bound). -/
theorem C1_render_clamp_upper_bound :
    ∀ (env : ClusterEnv) (u : UIModel), numNodes env ≠ 0 →
      0 < (viewStep env u).1.stop - (viewStep env u).1.start →
      (viewStep env u).1.current
        ≤ (viewStep env u).1.stop - (viewStep env u).1.start - 1 := by
  intro env u hn _
  simp only [viewStep, if_neg hn]
  exact clamp_le _ _

/-! Event trace refuting the C1 lower bound: capacity 2 (viewport height
7, 2-newline summary, 1-line nodes), 6 nodes paged down to the last page,
then the data set shrinks to 4 (stale `page*perPage = totalNodes`, clamp
sets the cursor to `-1` on an empty visible slice) and grows to 5 (the
visible slice is non-empty again but the cursor stays `-1`). -/

def c1Step0 : UIModel := (updateStep (mkEnv 6) (.winSize 7 80) initModel).model

def c1Step1 : UIModel := (viewStep (mkEnv 6) c1Step0).1

def c1Step2 : UIModel := (updateStep (mkEnv 6) .keyDown c1Step1).model

def c1Step3 : UIModel := (updateStep (mkEnv 6) .keyDown c1Step2).model

def c1Step4 : UIModel := (updateStep (mkEnv 6) .keyDown c1Step3).model

def c1Step5 : UIModel := (updateStep (mkEnv 6) .keyDown c1Step4).model

def c1Step6 : UIModel := (viewStep (mkEnv 4) c1Step5).1

def c1Step7 : UIModel := (viewStep (mkEnv 5) c1Step6).1

/-- Counterexample for C1 as stated: after navigation, geometry and
data-set-resize events, a render with stale `page*perPage = totalNodes`
clamps the cursor to `-1` (not in range), and the next render leaves a
non-empty visible set whose cursor is still `-1`, violating
`0 ≤ current ≤ visibleCount - 1`. -/
theorem C1_counterexample :
    c1Step6.pag.page * c1Step6.pag.perPage = numNodes (mkEnv 4)
    ∧ c1Step6.current = -1
    ∧ 0 < c1Step7.stop - c1Step7.start
    ∧ ¬(0 ≤ c1Step7.current
        ∧ c1Step7.current ≤ c1Step7.stop - c1Step7.start - 1) := by
  decide

/-- Witness for C1's amended upper bound on a concrete render. -/
theorem C1_witness :
    (viewStep (mkEnv 5) c1Step6).1.current
      ≤ (viewStep (mkEnv 5) c1Step6).1.stop
        - (viewStep (mkEnv 5) c1Step6).1.start - 1 :=
  C1_render_clamp_upper_bound (mkEnv 5) c1Step6 (by decide) (by decide)

/-! C9 scenario trace: 5 nodes, viewport height 7 (capacity 2). -/

def c9Start : UIModel :=
  (viewStep (mkEnv 5) (updateStep (mkEnv 5) (.winSize 7 80) initModel).model).1

def c9Down1 : UIModel := (updateStep (mkEnv 5) .keyDown c9Start).model

def c9Down2 : UIModel := (updateStep (mkEnv 5) .keyDown c9Down1).model

def c9Down3 : UIModel := (updateStep (mkEnv 5) .keyDown c9Down2).model

def c9Down4 : UIModel := (updateStep (mkEnv 5) .keyDown c9Down3).model

/-- C9: the navigation transitions of `Update`, and the 5-node /
capacity-2 scenario (3 pages; downs from page 0 cursor 0 pass through
page 1 cursor 0, page 1 cursor 1, page 2 cursor 0). -/
theorem C9_navigation_semantics :
    (∀ (env : ClusterEnv) (u : UIModel),
      u.current < u.stop - u.start - 1 →
      updateStep env .keyDown u
        = ⟨{ u with current := u.current + 1 }, .nilCmd, none⟩)
    ∧ (∀ (env : ClusterEnv) (u : UIModel),
        u.current = u.stop - u.start - 1 →
        u.pag.page ≠ u.pag.totalPages - 1 →
        updateStep env .keyDown u
          = ⟨{ u with
              pag := { u.pag with page := u.pag.page + 1 }
              start := (getSliceBounds (numNodes env)
                { u.pag with page := u.pag.page + 1 }).1
              stop := (getSliceBounds (numNodes env)
                { u.pag with page := u.pag.page + 1 }).2
              current := 0 }, .nilCmd, none⟩)
    ∧ (∀ (env : ClusterEnv) (u : UIModel),
        u.current > 0 →
        updateStep env .keyUp u
          = ⟨{ u with current := u.current - 1 }, .nilCmd, none⟩)
    ∧ (∀ (env : ClusterEnv) (u : UIModel),
        u.current = 0 → u.pag.page > 0 →
        updateStep env .keyUp u
          = ⟨{ u with
              pag := { u.pag with page := u.pag.page - 1 }
              start := (getSliceBounds (numNodes env)
                { u.pag with page := u.pag.page - 1 }).1
              stop := (getSliceBounds (numNodes env)
                { u.pag with page := u.pag.page - 1 }).2
              current := (getSliceBounds (numNodes env)
                  { u.pag with page := u.pag.page - 1 }).2
                - (getSliceBounds (numNodes env)
                  { u.pag with page := u.pag.page - 1 }).1 - 1 },
              .nilCmd, none⟩)
    ∧ (c9Start.pag.perPage = 2 ∧ c9Start.pag.totalPages = 3
        ∧ c9Start.pag.page = 0 ∧ c9Start.current = 0
        ∧ c9Down2.pag.page = 1 ∧ c9Down2.current = 0
        ∧ c9Down3.pag.page = 1 ∧ c9Down3.current = 1
        ∧ c9Down4.pag.page = 2 ∧ c9Down4.current = 0) := by
  refine ⟨?_, ?_, ?_, ?_, by decide⟩
  · intro env u h
    simp only [updateStep, if_pos h]
  · intro env u h1 h2
    simp only [updateStep]
    rw [if_neg (by omega), if_pos ⟨h1, h2⟩]
  · intro env u h
    simp only [updateStep, if_pos h]
  · intro env u h1 h2
    simp only [updateStep]
    rw [if_neg (by omega), if_pos ⟨h1, h2⟩]

/-- Witness for C9's moveDown increment on a concrete state. -/
theorem C9_witness :
    updateStep (mkEnv 5) .keyDown c9Start
      = ⟨{ c9Start with current := c9Start.current + 1 },
          TeaCmd.nilCmd, none⟩ :=
  C9_navigation_semantics.1 (mkEnv 5) c9Start (by decide)

theorem parseSortSpec_plain (k : GoStr)
    (h1 : goHasSuffix k "=asc".data = false)
    (h2 : goHasSuffix k "=dsc".data = false) :
    parseSortSpec k = (false, k) := by
  rw [parseSortSpec]
  simp [h1, h2]

/-- C8: a sort key other than `creation` (with no direction suffix of its
own) never errors — it builds the label comparator: each node's value is
the direct label lookup or else the computed-label fallback, the primary
order is natural-order comparison of the two values, and equal values
fall back to natural-order comparison of the instance identifiers,
reversed under `=dsc`. -/
theorem C8_label_key_comparator :
    (∀ (cl : GoStr → Node → GoStr) (k : GoStr),
      goHasSuffix k "=asc".data = false →
      goHasSuffix k "=dsc".data = false →
      k ≠ "creation".data →
      ∀ l r : Node,
        makeNodeSorter cl k l r
          = (if labelValue cl k l = labelValue cl k r
             then natLt l.instanceID r.instanceID
             else natLt (labelValue cl k l) (labelValue cl k r)))
    ∧ (∀ (cl : GoStr → Node → GoStr) (k : GoStr),
        k ≠ "creation".data →
        ∀ l r : Node,
          makeNodeSorter cl (k ++ "=dsc".data) l r
            = !(if labelValue cl k l = labelValue cl k r
                then natLt l.instanceID r.instanceID
                else natLt (labelValue cl k l) (labelValue cl k r)))
    ∧ (∀ (cl : GoStr → Node → GoStr) (k : GoStr),
        k ≠ "creation".data →
        ∀ l r : Node,
          labelValue cl k l = labelValue cl k r →
          makeNodeSorter cl (k ++ "=dsc".data) l r
            = !(natLt l.instanceID r.instanceID)) := by
  refine ⟨?_, ?_, ?_⟩
  · intro cl k h1 h2 hk l r
    simp only [makeNodeSorter, parseSortSpec_plain k h1 h2]
    rw [if_neg hk]
    simp [labelLess, sortOrderApply]
  · intro cl k hk l r
    simp only [makeNodeSorter, parseSortSpec_append_dsc k]
    rw [if_neg hk]
    simp [labelLess, sortOrderApply]
  · intro cl k hk l r htie
    simp only [makeNodeSorter, parseSortSpec_append_dsc k]
    rw [if_neg hk]
    simp [labelLess, sortOrderApply, htie]

/-- Witness for C8: `zone=dsc` on two nodes sharing a zone label falls
back to descending natural-order comparison of instance identifiers. -/
theorem C8_witness :
    labelValue (fun _ _ => []) "zone".data nodeA
      = labelValue (fun _ _ => []) "zone".data nodeB
    ∧ makeNodeSorter (fun _ _ => []) ("zone".data ++ "=dsc".data) nodeA nodeB
      = !(natLt nodeA.instanceID nodeB.instanceID) :=
  ⟨by decide,
    C8_label_key_comparator.2.2 (fun _ _ => []) "zone".data (by decide)
      nodeA nodeB (by decide)⟩

end EksNodeExplorer
